import Mathlib

/-!
Verification of the `davies` cave-survey library (Compass / PocketTopo
parsers and the PocketTopo→Compass conversion example).

Numeric readings are embedded as exact rationals (`ℚ`); Python's binary
`%` on a positive divisor is embedded as `qmod`.  Values that may be the
Python `None` are embedded as `Option`.  Trigonometric quantities of the
conversion engine live in `ℝ`.  Python code that can raise an exception
is embedded in `Except PyExc`.
-/

namespace Davies

/-- Python's `x % y` for a positive divisor `y`: the representative of
`x` modulo `y` lying in `[0, y)`. -/
def qmod (x y : ℚ) : ℚ := x - y * ⌊x / y⌋

/-- Model of `davies.compass.Shot`: an ordered mapping of field name to value.
We embed the fields relevant to the corrected-value accessors and to the
survey length: a missing key is `none` (Python `None` / absent key).
Field order: FROM, TO, LENGTH, BEARING, AZM2, INC, INC2, FLAGS,
declination. -/
structure CompassShot where
  FROM : Option String
  TO : Option String
  LENGTH : Option ℚ
  BEARING : Option ℚ
  AZM2 : Option ℚ
  INC : Option ℚ
  INC2 : Option ℚ
  FLAGS : Option String
  declination : ℚ
deriving DecidableEq

/-- Compass `Shot.azm`: corrected azimuth.  `BEARING` is the forward
reading, `AZM2` the backsight reading. -/
def CompassShot.azm (s : CompassShot) : Option ℚ :=
  match s.BEARING, s.AZM2 with
  | none, none => none
  | some a1, none => some (a1 + s.declination)
  | none, some a2 => some (qmod (a2 + 180) 360 + s.declination)
  | some a1, some a2 => some ((a1 + qmod (a2 + 180) 360) / 2 + s.declination)

/-- Compass `Shot.inc`: corrected inclination.  `INC` is the forward
reading, `INC2` the backsight reading. -/
def CompassShot.inc (s : CompassShot) : Option ℚ :=
  match s.INC, s.INC2 with
  | none, none => none
  | some i1, none => some i1
  | none, some i2 => some (-1 * i2)
  | some i1, some i2 => some ((i1 - i2) / 2)

/-- Compass `Shot.length`: `self.get('LENGTH', None)`. -/
def CompassShot.len (s : CompassShot) : Option ℚ := s.LENGTH

/-- Model of `davies.pockettopo.Shot`: fields always written by the .TXT parser,
each `Option` because the underlying dict `get` defaults are observable. -/
structure PTShot where
  FROM : Option String
  TO : Option String
  LENGTH : Option ℚ
  AZM : Option ℚ
  INC : Option ℚ
  COMMENT : Option String
  declination : ℚ
deriving DecidableEq

/-- PocketTopo `Shot.azm`: `self.get('AZM', -0.0) + self.declination`.
The Python default `-0.0` is the rational `0`. -/
def PTShot.azm (s : PTShot) : ℚ := s.AZM.getD 0 + s.declination

/-- PocketTopo `Shot.inc`: `self.get('INC', -0.0)`. -/
def PTShot.inc (s : PTShot) : ℚ := s.INC.getD 0

/-- PocketTopo `Shot.length`: `self.get('LENGTH', -0.0)`. -/
def PTShot.len (s : PTShot) : ℚ := s.LENGTH.getD 0

/-- PocketTopo `Shot.is_splay`: `self.get('TO', None) in (None, '')`. -/
def PTShot.isSplay (s : PTShot) : Bool :=
  match s.TO with
  | none => true
  | some t => t = ""

/-- Model of `davies.pockettopo.Survey`: the fields the claims touch (name,
declination and the shot list; date / comment / cave name are plain
metadata strings with no behaviour). -/
structure PTSurvey where
  name : Option String
  declination : ℚ
  shots : List PTShot

/-- PocketTopo `Survey.add_shot`: sets `shot.declination` to the
survey's declination, then appends the shot to `shots`. -/
def PTSurvey.addShot (sv : PTSurvey) (s : PTShot) : PTSurvey :=
  { sv with shots := sv.shots ++ [{ s with declination := sv.declination }] }

/-- A survey populated by repeated `add_shot` calls, as the .TXT parser
does (`txtobj[survey_id].add_shot(shot)`). -/
def PTSurvey.addShots (sv : PTSurvey) (ss : List PTShot) : PTSurvey :=
  ss.foldl PTSurvey.addShot sv

/-- PocketTopo `Survey.length`: total surveyed cave length, not
including splays: `sum([shot.length for shot in self.shots if not
shot.is_splay])`. -/
def PTSurvey.length (sv : PTSurvey) : ℚ :=
  ((sv.shots.filter (fun s => !s.isSplay)).map PTShot.len).sum

/-- PocketTopo `Survey.total_length`: total surveyed length including
splays: `sum([shot.length for shot in self.shots])`. -/
def PTSurvey.totalLength (sv : PTSurvey) : ℚ :=
  (sv.shots.map PTShot.len).sum

/-- Python's `sum` over a list of `Option ℚ`, left to right: a `none`
summand raises `TypeError`, embedded as result `none`. -/
def pySum (acc : ℚ) : List (Option ℚ) → Option ℚ
  | [] => some acc
  | some l :: rest => pySum (acc + l) rest
  | none :: _ => none

/-- Compass `Survey.length`: `sum([shot.length for shot in
self.shots])` — over every shot, with no flag-based exclusion. -/
def compassSurveyLength (shots : List CompassShot) : Option ℚ :=
  pySum 0 (shots.map CompassShot.len)

/-- Exceptions raised by the embedded Python fragments. -/
inductive PyExc where
  | typeError
  | valueError
  | exception
deriving DecidableEq

/-- Value produced by Compass field coercion: Python `None`, a float,
the float `inf`, or a retained raw string. -/
inductive CValue where
  | absent
  | num (q : ℚ)
  | inf
  | str (s : String)
deriving DecidableEq

instance exceptDecEq {ε α : Type} [DecidableEq ε] [DecidableEq α] :
    DecidableEq (Except ε α) := fun a b =>
  match a, b with
  | Except.ok x, Except.ok y =>
    if h : x = y then isTrue (by rw [h]) else
      isFalse (fun hc => h (by cases hc; rfl))
  | Except.ok _, Except.error _ => isFalse (fun hc => by cases hc)
  | Except.error _, Except.ok _ => isFalse (fun hc => by cases hc)
  | Except.error e, Except.error e2 =>
    if h : e = e2 then isTrue (by rw [h]) else
      isFalse (fun hc => h (by cases hc; rfl))

/-- Model of `CompassSurveyParser._FLOAT_KEYS`. -/
def FLOAT_KEYS : List String :=
  ["LENGTH", "BEARING", "AZM2", "INC", "INC2", "LEFT", "RIGHT", "UP", "DOWN"]

/-- Model of `CompassSurveyParser._INF_KEYS`. -/
def INF_KEYS : List String := ["LEFT", "RIGHT", "UP", "DOWN"]

/-- Numeric value of a list of decimal digit characters. -/
def digitsVal (cs : List Char) : Nat :=
  cs.foldl (fun acc c => acc * 10 + (c.toNat - 48)) 0

/-- Model of Python `float(val)` on the decimal literals these survey
files carry: optional sign, integer digits, optional point and
fractional digits, at least one digit in total (exponents and the named
floats are never produced by these grammars).  `none` models an
unparsable string, on which Python `float` raises `ValueError`. -/
def parseFloat (s : String) : Option ℚ :=
  let step : List Char → Option ℚ := fun cs =>
    let intPart := cs.takeWhile Char.isDigit
    let rest := cs.dropWhile Char.isDigit
    match rest with
    | [] =>
      if intPart.isEmpty then none else some (mkRat (digitsVal intPart) 1)
    | '.' :: frac =>
      let fracPart := frac.takeWhile Char.isDigit
      let rest2 := frac.dropWhile Char.isDigit
      if rest2.isEmpty then
        if intPart.isEmpty && fracPart.isEmpty then none
        else some (mkRat
          (digitsVal intPart * 10 ^ fracPart.length + digitsVal fracPart)
          (10 ^ fracPart.length))
      else none
    | _ => none
  match s.toList with
  | '-' :: cs => (step cs).map (fun q => -q)
  | '+' :: cs => step cs
  | cs => step cs

/-- Python `float(val)` applied to a string argument: raises
`ValueError` when the text is not numeric (a `TypeError` would need a
non-string argument, which the shot tokenizer never passes). -/
def pyFloat (val : String) : Except PyExc ℚ :=
  match parseFloat val with
  | some q => Except.ok q
  | none => Except.error PyExc.valueError

/-- Model of `CompassSurveyParser._coerce`: the sentinel `-999.00`
decodes to `None`; the LRUD sentinels `-9.90` / `-9999.00` decode to
`inf`; any other value of a float key goes through `float(val)`, whose
`TypeError` — and only `TypeError` — is caught, logged and degraded to
the raw string, so the `ValueError` a non-numeric string actually
raises propagates to the caller. -/
def coerce (key val : String) : Except PyExc CValue :=
  if val = "-999.00" then Except.ok CValue.absent
  else if key ∈ INF_KEYS ∧ (val = "-9.90" ∨ val = "-9999.00") then
    Except.ok CValue.inf
  else if key ∈ FLOAT_KEYS then
    match pyFloat val with
    | Except.ok q => Except.ok (CValue.num q)
    | Except.error PyExc.typeError => Except.ok (CValue.str val)
    | Except.error e => Except.error e
  else Except.ok (CValue.str val)

/-- Outcome of one PocketTopo shot line (a line carrying a bracketed
survey id): a parsed shot, or a silently skipped placeholder. -/
inductive ShotLineResult where
  | shot (fr : String) (toSta : Option String) (len azm inc : ℚ)
  | skipped
deriving DecidableEq

/-- Unpacking `(length, azm, inc) = (float(tok) for tok in toks)`:
`none` (a raised `ValueError`) unless there are exactly three tokens
and each parses as a float. -/
def parse3Floats (toks : List String) : Option (ℚ × ℚ × ℚ) :=
  match toks with
  | [a, b, c] =>
    match parseFloat a, parseFloat b, parseFloat c with
    | some x, some y, some z => some (x, y, z)
    | _, _, _ => none
  | _ => none

/-- Model of the shot-line branch of `PocketTopoTxtParser.parse`: after
the comment and the bracketed survey id are stripped, `toks[:-3]` holds
the station names and `toks[-3:]` the length / azimuth / inclination
readings; two names make a leg, one a splay, none with zero length a
skipped placeholder, and anything else raises. -/
def parseShotLine (toks : List String) : Except PyExc ShotLineResult :=
  match parse3Floats (toks.drop (toks.length - 3)) with
  | none => Except.error PyExc.valueError
  | some (l, a, i) =>
    match toks.take (toks.length - 3) with
    | [f, t] => Except.ok (ShotLineResult.shot f (some t) l a i)
    | [f] => Except.ok (ShotLineResult.shot f none l a i)
    | [] =>
      if l = 0 then Except.ok ShotLineResult.skipped
      else Except.error PyExc.exception
    | _ => Except.error PyExc.exception

/-- Decimal digit character. -/
def digitChar (n : Nat) : Char :=
  match n with
  | 0 => '0'
  | 1 => '1'
  | 2 => '2'
  | 3 => '3'
  | 4 => '4'
  | 5 => '5'
  | 6 => '6'
  | 7 => '7'
  | 8 => '8'
  | _ => '9'

/-- Python `'%03d' % n` on the range `0 ≤ n ≤ 1000` that
`random.randint(0, 1000)` produces: three zero-padded decimal digits,
or the plain decimal digits when the number needs more than three. -/
def pad3 (n : Nat) : String :=
  if n < 1000 then
    String.mk [digitChar (n / 100), digitChar (n / 10 % 10), digitChar (n % 10)]
  else toString n

/-- Model of the synthetic TO station name
`'%s.s%03d' % (inshot['FROM'], random.randint(0, 1000))` built by
`shot2shot`; the pseudo-random draw is passed in explicitly. -/
def synthName (fr : String) (r : Nat) : String :=
  fr ++ ".s" ++ pad3 r

/-- Model of the converted TO field `inshot['TO'] or '%s.s%03d' % ...`:
a falsy TO (Python `None` or the empty string) is replaced by the
synthetic name. -/
def toField (toSta : Option String) (fr : String) (r : Nat) : String :=
  match toSta with
  | some t => if t = "" then synthName fr r else t
  | none => synthName fr r

/-- Splay reading triple used by the LRUD engine: the .TXT parser writes
AZM, INC and LENGTH on every shot, and `shot2shot` reads them with
mandatory dict access. -/
structure SplayShot where
  AZM : ℚ
  INC : ℚ
  LENGTH : ℚ
deriving DecidableEq

/-- Modelled from the spec: the degree-to-radian conversion implied by
the trigonometric helpers of `davies.survey_math`, a module that is not
among the sources. -/
noncomputable def rad (x : ℚ) : ℝ := (x : ℝ) * Real.pi / 180

/-- Modelled from the spec: `davies.survey_math.hd` (not among the
sources), the horizontal projected distance — distance × cosine of
inclination. -/
noncomputable def hd (inc d : ℚ) : ℝ := (d : ℝ) * Real.cos (rad inc)

/-- Modelled from the spec: `davies.survey_math.vd` (not among the
sources), the vertical projected distance — distance × sine of
inclination — reported as a non-negative magnitude, per "DOWN magnitude
reported as a non-negative value despite its negative source
inclination". -/
noncomputable def vd (inc d : ℚ) : ℝ := |(d : ℝ) * Real.sin (rad inc)|

/-- Modelled from the spec: `davies.survey_math.angle_delta` (not among
the sources), the angular difference between two azimuths as a circular
distance in `[0, 180]`. -/
def angleDelta (a b : ℚ) : ℚ := |qmod (a - b + 180) 360 - 180|

/-- Model of `find_candidate_splays`: the splays within half the cone
threshold of both the target azimuth and the target inclination. -/
def findCandidateSplays (splays : List SplayShot) (azm inc delta : ℚ) :
    List SplayShot :=
  splays.filter (fun s =>
    decide (angleDelta s.AZM azm ≤ delta / 2 ∧ angleDelta s.INC inc ≤ delta / 2))

/-- Model of `find_candidate_vert_splays`: splays with inclination at
least 30 for UP (target 90), at most −30 for DOWN (target −90), and the
implicit Python `None` for any other target. -/
def findCandidateVertSplays (splays : List SplayShot) (inc : ℚ) :
    Option (List SplayShot) :=
  if inc = 90 then some (splays.filter (fun s => decide (30 ≤ s.INC)))
  else if inc = -90 then some (splays.filter (fun s => decide (s.INC ≤ -30)))
  else none

/-- Python's `max(current :: rest, key=key)`: a later element replaces
the current maximum only when its key is strictly greater. -/
noncomputable def pymax (key : SplayShot → ℝ) (a : SplayShot) :
    List SplayShot → SplayShot
  | [] => a
  | b :: t => pymax key (if key a < key b then b else a) t

/-- Model of one horizontal block (LEFT or RIGHT) of `shot2shot`: the
candidate maximizing horizontal projected distance, or 0 when no
candidate exists. -/
noncomputable def horizValue (splays : List SplayShot) (targetAzm : ℚ) : ℝ :=
  match findCandidateSplays splays targetAzm 0 60 with
  | [] => 0
  | c :: cs =>
    let ls := pymax (fun s => hd s.INC s.LENGTH) c cs
    hd ls.INC ls.LENGTH

/-- Model of one vertical block (UP or DOWN) of `shot2shot`: the
candidate maximizing vertical projected distance, or 0 when no
candidate exists. -/
noncomputable def vertValue (splays : List SplayShot) (inc : ℚ) : ℝ :=
  match findCandidateVertSplays splays inc with
  | some (c :: cs) =>
    let vs := pymax (fun s => vd s.INC s.LENGTH) c cs
    vd vs.INC vs.LENGTH
  | _ => 0

/-- Model of the LRUD quadruple computed by `shot2shot` for a non-splay
shot with splays recorded at its FROM station. -/
noncomputable def lrudValues (splays : List SplayShot) (azm : ℚ) :
    ℝ × ℝ × ℝ × ℝ :=
  (horizValue splays (qmod (azm - 90) 360),
   horizValue splays (qmod (azm + 90) 360),
   vertValue splays 90,
   vertValue splays (-90))

/-- Model of the emission step of `shot2shot`: the post-condition
`assert(all(v >= 0 for v in (left, right, up, down)))` guards the
emission; an assertion failure is `none`. -/
noncomputable def shot2shotLRUD (splays : List SplayShot) (azm : ℚ) :
    Option (ℝ × ℝ × ℝ × ℝ) :=
  let v := lrudValues splays azm
  if 0 ≤ v.1 ∧ 0 ≤ v.2.1 ∧ 0 ≤ v.2.2.1 ∧ 0 ≤ v.2.2.2 then some v else none

end Davies

namespace Davies

theorem qmod_nonneg (x : ℚ) {y : ℚ} (hy : 0 < y) : 0 ≤ qmod x y := by
  have h := Int.floor_le (x / y)
  have : (⌊x / y⌋ : ℚ) * y ≤ x / y * y :=
    mul_le_mul_of_nonneg_right h (le_of_lt hy)
  rw [div_mul_cancel₀ x (ne_of_gt hy)] at this
  unfold qmod
  nlinarith

theorem qmod_lt (x : ℚ) {y : ℚ} (hy : 0 < y) : qmod x y < y := by
  have h := Int.lt_floor_add_one (x / y)
  have : x / y * y < ((⌊x / y⌋ : ℚ) + 1) * y :=
    mul_lt_mul_of_pos_right h hy
  rw [div_mul_cancel₀ x (ne_of_gt hy)] at this
  unfold qmod
  nlinarith

/-- C1: a Compass `Shot` with both a forward azimuth reading (BEARING)
and a backsight azimuth reading (AZM2) has corrected azimuth
`(fwd + ((back + 180) mod 360)) / 2 + declination`. -/
theorem compass_azm_both_readings (s : CompassShot) (a b : ℚ)
    (h1 : s.BEARING = some a) (h2 : s.AZM2 = some b) :
    s.azm = some ((a + qmod (b + 180) 360) / 2 + s.declination) := by
  unfold CompassShot.azm
  rw [h1, h2]

/-- C1 witness: the shot from the repository's own correction test
(declination 8.5, BEARING 7.0, AZM2 189.0) has corrected azimuth 16.5. -/
theorem compass_azm_both_readings_witness :
    (CompassShot.mk none none none (some 7) (some 189) none none none (17/2)).azm
      = some (33/2) := by
  have h := compass_azm_both_readings
    (CompassShot.mk none none none (some 7) (some 189) none none none (17/2))
    7 189 rfl rfl
  rw [h]
  have : qmod (189 + 180) 360 = 9 := by
    unfold qmod
    norm_num
  rw [this]
  norm_num

/-- C2: a Compass `Shot`'s corrected inclination is the average of the
forward reading and the negated backsight reading when both exist, and
`-1 ×` the backsight reading when only the backsight exists. -/
theorem compass_inc_correction (s : CompassShot) (j : ℚ)
    (h2 : s.INC2 = some j) :
    (∀ i : ℚ, s.INC = some i → s.inc = some ((i + (-j)) / 2)) ∧
    (s.INC = none → s.inc = some (-1 * j)) := by
  constructor
  · intro i h1
    unfold CompassShot.inc
    rw [h1, h2]
    norm_num
    ring
  · intro h1
    unfold CompassShot.inc
    rw [h1, h2]

/-- C2 witness: with INC = −4 and INC2 = 3.5 the corrected inclination is
−3.75; with no forward reading and INC2 = 3.5 it is −3.5. -/
theorem compass_inc_correction_witness :
    (CompassShot.mk none none none none none (some (-4)) (some (7/2)) none 0).inc
        = some (-15/4) ∧
    (CompassShot.mk none none none none none none (some (7/2)) none 0).inc
        = some (-7/2) := by
  constructor
  · have h := (compass_inc_correction
      (CompassShot.mk none none none none none (some (-4)) (some (7/2)) none 0)
      (7/2) rfl).1 (-4) rfl
    rw [h]
    norm_num
  · have h := (compass_inc_correction
      (CompassShot.mk none none none none none none (some (7/2)) none 0)
      (7/2) rfl).2 rfl
    rw [h]
    norm_num

/-- C3 counterexample: a PocketTopo `Shot` with no readings at all and
declination 0 returns the numeric value 0 from all three corrected-value
accessors — a numeric zero, not an absent marker, refuting the claim for
the PocketTopo model. -/
theorem pt_accessors_default_to_zero :
    (PTShot.mk none none none none none none 0).azm = 0 ∧
    (PTShot.mk none none none none none none 0).inc = 0 ∧
    (PTShot.mk none none none none none none 0).len = 0 := by
  refine ⟨?_, rfl, rfl⟩
  unfold PTShot.azm
  norm_num

/-- C3 (amended): the Compass accessors return the absent marker `none`
when no underlying reading exists; the PocketTopo accessors are total
and substitute `-0.0` for a missing reading, so `azm` returns the bare
declination and `inc` / `length` return zero. -/
theorem accessors_absent_behaviour (cs : CompassShot) (ps : PTShot) :
    (cs.BEARING = none → cs.AZM2 = none → cs.azm = none) ∧
    (cs.INC = none → cs.INC2 = none → cs.inc = none) ∧
    (cs.LENGTH = none → cs.len = none) ∧
    (ps.AZM = none → ps.azm = ps.declination) ∧
    (ps.INC = none → ps.inc = 0) ∧
    (ps.LENGTH = none → ps.len = 0) := by
  refine ⟨?_, ?_, ?_, ?_, ?_, ?_⟩
  · intro h1 h2
    unfold CompassShot.azm
    rw [h1, h2]
  · intro h1 h2
    unfold CompassShot.inc
    rw [h1, h2]
  · intro h
    unfold CompassShot.len
    exact h
  · intro h
    unfold PTShot.azm
    rw [h]
    norm_num
  · intro h
    unfold PTShot.inc
    rw [h]
    rfl
  · intro h
    unfold PTShot.len
    rw [h]
    rfl

/-- C3 amended-claim witness: concrete reading-free Compass and
PocketTopo shots exercise every branch of the amended statement. -/
theorem accessors_absent_behaviour_witness :
    (CompassShot.mk none none none none none none none none 5).azm = none ∧
    (PTShot.mk none none none none none none 5).azm = 5 := by
  have h := accessors_absent_behaviour
    (CompassShot.mk none none none none none none none none 5)
    (PTShot.mk none none none none none none 5)
  exact ⟨h.1 rfl rfl, h.2.2.2.1 rfl⟩

theorem pySum_eq (opts : List (Option ℚ)) (h : ∀ x ∈ opts, x ≠ none) :
    ∀ acc, pySum acc opts = some (acc + (opts.map (fun o => o.getD 0)).sum) := by
  induction opts with
  | nil =>
    intro acc
    simp [pySum]
  | cons o rest ih =>
    intro acc
    have hrest : ∀ x ∈ rest, x ≠ none := fun x hx => h x (List.mem_cons_of_mem o hx)
    cases o with
    | none => exact absurd rfl (h none (List.mem_cons_self none rest))
    | some l =>
      rw [show pySum acc (some l :: rest) = pySum (acc + l) rest from rfl,
        ih hrest (acc + l)]
      simp
      ring

theorem pt_length_split (l : List PTShot) :
    (l.map PTShot.len).sum
      = ((l.filter (fun s => !s.isSplay)).map PTShot.len).sum
        + ((l.filter (fun s => s.isSplay)).map PTShot.len).sum := by
  induction l with
  | nil => simp
  | cons a t ih =>
    cases hsp : a.isSplay with
    | true =>
      simp [List.filter_cons, hsp, ih]
      ring
    | false =>
      simp [List.filter_cons, hsp, ih]
      ring

/-- C7 counterexample: a Compass survey whose only shot carries the
length-exclusion flag `L` and length 5 still has total length 5, not 0:
the flagged shot is not removed from the length total. -/
theorem compass_length_ignores_flags :
    compassSurveyLength
        [CompassShot.mk none none (some 5) none none none none (some "L") 0]
      = some 5 ∧ some (5 : ℚ) ≠ some (0 : ℚ) := by
  constructor
  · show pySum 0 [some 5] = some 5
    show pySum (0 + 5) [] = some 5
    norm_num [pySum]
  · simp

/-- C7 (amended): a PocketTopo survey's `length` excludes splay shots
while they remain in the shot list (`total_length` is `length` plus the
splays' lengths); a Compass survey's `length` is the sum of every
shot's length, with no flag-based exclusion, and is only defined when
every shot has a LENGTH reading. -/
theorem survey_length_totals (cshots : List CompassShot) (sv : PTSurvey)
    (hc : ∀ s ∈ cshots, s.LENGTH ≠ none) :
    compassSurveyLength cshots
        = some ((cshots.map (fun s => s.LENGTH.getD 0)).sum) ∧
    sv.totalLength
        = sv.length + ((sv.shots.filter (fun s => s.isSplay)).map PTShot.len).sum := by
  constructor
  · unfold compassSurveyLength
    have h : ∀ x ∈ cshots.map CompassShot.len, x ≠ none := by
      intro x hx
      rcases List.mem_map.1 hx with ⟨s, hs, rfl⟩
      exact hc s hs
    rw [pySum_eq (cshots.map CompassShot.len) h 0]
    rw [List.map_map]
    norm_num
    rfl
  · unfold PTSurvey.totalLength PTSurvey.length
    exact pt_length_split sv.shots

/-- C7 amended-claim witness: one Compass shot of length 5 and a
PocketTopo survey with a 3-length leg and a 2-length splay. -/
theorem survey_length_totals_witness :
    (∀ s ∈ [CompassShot.mk none none (some 5) none none none none none 0],
        s.LENGTH ≠ none) ∧
    (compassSurveyLength
        [CompassShot.mk none none (some 5) none none none none none 0]
      = some (([CompassShot.mk none none (some 5) none none none none none 0].map
          (fun s => s.LENGTH.getD 0)).sum) ∧
    (PTSurvey.mk none 0
        [PTShot.mk (some "a") (some "b") (some 3) none none none 0,
         PTShot.mk (some "a") none (some 2) none none none 0]).totalLength
      = (PTSurvey.mk none 0
          [PTShot.mk (some "a") (some "b") (some 3) none none none 0,
           PTShot.mk (some "a") none (some 2) none none none 0]).length
        + (((PTSurvey.mk none 0
            [PTShot.mk (some "a") (some "b") (some 3) none none none 0,
             PTShot.mk (some "a") none (some 2) none none none 0]).shots.filter
              (fun s => s.isSplay)).map PTShot.len).sum) :=
  ⟨by decide, survey_length_totals _ _ (by decide)⟩

theorem addShots_unfold (ss : List PTShot) :
    ∀ sv : PTSurvey,
      (sv.addShots ss).shots
          = sv.shots ++ ss.map (fun s => { s with declination := sv.declination })
        ∧ (sv.addShots ss).declination = sv.declination := by
  induction ss with
  | nil =>
    intro sv
    simp [PTSurvey.addShots]
  | cons a t ih =>
    intro sv
    have step : sv.addShots (a :: t) = (sv.addShot a).addShots t := rfl
    rcases ih (sv.addShot a) with ⟨h1, h2⟩
    constructor
    · rw [step, h1]
      simp [PTSurvey.addShot]
    · rw [step, h2]
      rfl

/-- C10: `add_shot` stores the shot with its declination overwritten by
the survey's declination, so in a survey populated through `add_shot`
every contained shot carries the survey's declination and its corrected
azimuth is its raw AZM reading plus that declination. -/
theorem pt_addshot_declination (sv : PTSurvey) (s : PTShot)
    (nm : Option String) (d : ℚ) (ss : List PTShot) (t : PTShot)
    (ht : t ∈ ((PTSurvey.mk nm d []).addShots ss).shots) :
    (sv.addShot s).shots.getLast? = some { s with declination := sv.declination } ∧
    t.declination = d ∧ t.azm = t.AZM.getD 0 + d := by
  have hlast : (sv.addShot s).shots.getLast?
      = some { s with declination := sv.declination } := by
    unfold PTSurvey.addShot
    simp
  have hdecl : t.declination = d := by
    rcases addShots_unfold ss (PTSurvey.mk nm d []) with ⟨h1, _⟩
    rw [h1] at ht
    simp at ht
    rcases ht with ⟨u, _, rfl⟩
    rfl
  refine ⟨hlast, hdecl, ?_⟩
  unfold PTShot.azm
  rw [hdecl]

/-- C10 witness: adding a shot whose stale declination is 99 to a survey
with declination 3 stores it with declination 3, and its corrected
azimuth is raw AZM 10 plus 3. -/
theorem pt_addshot_declination_witness :
    (PTShot.mk none none none (some 10) none none 3)
        ∈ ((PTSurvey.mk none 3 []).addShots
            [PTShot.mk none none none (some 10) none none 99]).shots ∧
    (((PTSurvey.mk none 0 []).addShot
        (PTShot.mk none none none (some 10) none none 99)).shots.getLast?
      = some (PTShot.mk none none none (some 10) none none 0) ∧
    (PTShot.mk none none none (some 10) none none 3).declination = 3 ∧
    (PTShot.mk none none none (some 10) none none 3).azm
      = (PTShot.mk none none none (some 10) none none 3).AZM.getD 0 + 3) :=
  ⟨by decide,
    pt_addshot_declination (PTSurvey.mk none 0 [])
      (PTShot.mk none none none (some 10) none none 99) none 3
      [PTShot.mk none none none (some 10) none none 99]
      (PTShot.mk none none none (some 10) none none 3) (by decide)⟩

/-- C5: coercing the non-numeric text `abc` for the float field LENGTH
raises `ValueError` — `_coerce` catches only `TypeError`, but Python
`float` raises `ValueError` on a non-numeric string — so the exception
propagates and the enclosing record parse is aborted instead of the raw
string being retained. -/
theorem coerce_nonnumeric_raises :
    coerce "LENGTH" "abc" = Except.error PyExc.valueError ∧
    parseFloat "abc" = none := by
  decide

/-- C6: for every numeric Compass field the sentinel `-999.00` coerces
to the explicit absent value, and for every LRUD field the sentinels
`-9.90` and `-9999.00` coerce to positive infinity, which is neither a
numeric zero nor the absent value. -/
theorem coerce_sentinel_values (k1 k2 : String)
    (_hf : k1 ∈ FLOAT_KEYS) (hi : k2 ∈ INF_KEYS) :
    coerce k1 "-999.00" = Except.ok CValue.absent ∧
    coerce k2 "-9.90" = Except.ok CValue.inf ∧
    coerce k2 "-9999.00" = Except.ok CValue.inf ∧
    (∀ q : ℚ, CValue.inf ≠ CValue.num q) ∧ CValue.inf ≠ CValue.absent := by
  refine ⟨?_, ?_, ?_, fun q h => CValue.noConfusion h, fun h => CValue.noConfusion h⟩
  · unfold coerce
    rw [if_pos rfl]
  · unfold coerce
    rw [if_neg (by decide), if_pos ⟨hi, Or.inl rfl⟩]
  · unfold coerce
    rw [if_neg (by decide), if_pos ⟨hi, Or.inr rfl⟩]

/-- C6 witness: the numeric field LENGTH and the LRUD field LEFT. -/
theorem coerce_sentinel_values_witness :
    ("LENGTH" ∈ FLOAT_KEYS ∧ "LEFT" ∈ INF_KEYS) ∧
    (coerce "LENGTH" "-999.00" = Except.ok CValue.absent ∧
      coerce "LEFT" "-9.90" = Except.ok CValue.inf ∧
      coerce "LEFT" "-9999.00" = Except.ok CValue.inf ∧
      (∀ q : ℚ, CValue.inf ≠ CValue.num q) ∧ CValue.inf ≠ CValue.absent) :=
  ⟨⟨by decide, by decide⟩, coerce_sentinel_values "LENGTH" "LEFT" (by decide) (by decide)⟩

/-- C8: on a PocketTopo shot line whose last three tokens parse as
length / azimuth / inclination, two remaining tokens produce a leg with
FROM and TO, one produces a splay with TO absent, zero with zero length
produces no shot, zero with non-zero length raises, and three or more
raise. -/
theorem pt_shot_line_arity (toks : List String) (l a i : ℚ)
    (h : parse3Floats (toks.drop (toks.length - 3)) = some (l, a, i)) :
    (∀ f t, toks.take (toks.length - 3) = [f, t] →
        parseShotLine toks = Except.ok (ShotLineResult.shot f (some t) l a i)) ∧
    (∀ f, toks.take (toks.length - 3) = [f] →
        parseShotLine toks = Except.ok (ShotLineResult.shot f none l a i)) ∧
    (toks.take (toks.length - 3) = [] →
      (l = 0 → parseShotLine toks = Except.ok ShotLineResult.skipped) ∧
      (l ≠ 0 → parseShotLine toks = Except.error PyExc.exception)) ∧
    (2 < (toks.take (toks.length - 3)).length →
        parseShotLine toks = Except.error PyExc.exception) := by
  refine ⟨?_, ?_, ?_, ?_⟩
  · intro f t hft
    unfold parseShotLine
    rw [h, hft]
  · intro f hf1
    unfold parseShotLine
    rw [h, hf1]
  · intro hnil
    constructor
    · intro hl
      unfold parseShotLine
      rw [h, hnil]
      exact if_pos hl
    · intro hl
      unfold parseShotLine
      rw [h, hnil]
      exact if_neg hl
  · intro hlen
    unfold parseShotLine
    rw [h]
    rcases hpre : toks.take (toks.length - 3) with _ | ⟨x, pre2⟩
    · rw [hpre] at hlen
      simp at hlen
    rcases pre2 with _ | ⟨y, pre3⟩
    · rw [hpre] at hlen
      simp at hlen
    rcases pre3 with _ | ⟨z, pre4⟩
    · rw [hpre] at hlen
      simp at hlen
    · rfl

/-- C8 witness: the line tokens `A B 5.0 120.0 -10.0` parse to the leg
FROM=A, TO=B with length 5, azimuth 120, inclination −10. -/
theorem pt_shot_line_arity_witness :
    parse3Floats ((["A", "B", "5.0", "120.0", "-10.0"]).drop
        ((["A", "B", "5.0", "120.0", "-10.0"]).length - 3)) = some (5, 120, -10) ∧
    parseShotLine ["A", "B", "5.0", "120.0", "-10.0"]
      = Except.ok (ShotLineResult.shot "A" (some "B") 5 120 (-10)) :=
  ⟨by decide,
    (pt_shot_line_arity ["A", "B", "5.0", "120.0", "-10.0"] 5 120 (-10)
      (by decide)).1 "A" "B" (by decide)⟩

/-- C9 counterexample: converting the same splay shot (TO absent, FROM
`A1`) twice with different pseudo-random draws yields the different
synthetic TO names `A1.s001` and `A1.s002`: the name is not a
deterministic function of the input shot alone. -/
theorem synth_to_name_not_deterministic :
    toField none "A1" 1 ≠ toField none "A1" 2 := by
  decide

theorem digitChar_inj {a b : Nat} (ha : a < 10) (hb : b < 10)
    (h : digitChar a = digitChar b) : a = b := by
  interval_cases a <;> interval_cases b <;> simp_all [digitChar]

theorem pad3_inj {a b : Nat} (ha : a ≤ 1000) (hb : b ≤ 1000)
    (h : pad3 a = pad3 b) : a = b := by
  rcases Nat.lt_or_ge a 1000 with h1 | h1 <;>
    rcases Nat.lt_or_ge b 1000 with h2 | h2
  · unfold pad3 at h
    rw [if_pos h1, if_pos h2] at h
    have hd := congrArg String.data h
    simp at hd
    obtain ⟨e1, e2, e3⟩ := hd
    have d1 := digitChar_inj (by omega) (by omega) e1
    have d2 := digitChar_inj (by omega) (by omega) e2
    have d3 := digitChar_inj (by omega) (by omega) e3
    omega
  · have hb2 : b = 1000 := by omega
    subst hb2
    unfold pad3 at h
    rw [if_pos h1, if_neg (by omega)] at h
    have hlen := congrArg String.length h
    have : (toString (1000 : Nat)).length = 4 := by decide
    rw [this] at hlen
    simp [String.length] at hlen
  · have ha2 : a = 1000 := by omega
    subst ha2
    unfold pad3 at h
    rw [if_neg (by omega), if_pos h2] at h
    have hlen := congrArg String.length h
    have : (toString (1000 : Nat)).length = 4 := by decide
    rw [this] at hlen
    simp [String.length] at hlen
  · omega

/-- C9 (amended): the synthetic TO name for a splay is the FROM station
followed by `.s` and the zero-padded draw of `random.randint(0, 1000)`:
the FROM station is always a prefix of the name, and the name is
deterministic in the pair (input shot, draw) — two conversions of the
same input shot produce the same synthetic TO name exactly when their
pseudo-random draws coincide. -/
theorem synth_to_name_structure (fr : String) (r r' : Nat)
    (hr : r ≤ 1000) (hr' : r' ≤ 1000) :
    (toField none fr r = toField none fr r' ↔ r = r') ∧
    ∃ rest : List Char, (toField none fr r).data = fr.data ++ rest := by
  constructor
  · constructor
    · intro h
      unfold toField synthName at h
      have hd := congrArg String.data h
      rw [String.data_append, String.data_append,
        String.data_append, String.data_append] at hd
      have h2 := List.append_cancel_left hd
      have h3 : pad3 r = pad3 r' := by
        cases hp : pad3 r
        cases hp' : pad3 r'
        rw [hp, hp'] at h2
        simp_all
      exact pad3_inj hr hr' h3
    · intro h
      rw [h]
  · refine ⟨(".s" ++ pad3 r).data, ?_⟩
    unfold toField synthName
    rw [String.data_append, String.data_append, String.data_append,
      List.append_assoc]

/-- C9 amended-claim witness: FROM station `A1` with draws 1 and 2. -/
theorem synth_to_name_structure_witness :
    ((1 : Nat) ≤ 1000 ∧ (2 : Nat) ≤ 1000) ∧
    ((toField none "A1" 1 = toField none "A1" 2 ↔ 1 = 2) ∧
      ∃ rest : List Char, (toField none "A1" 1).data = "A1".data ++ rest) :=
  ⟨⟨by decide, by decide⟩, synth_to_name_structure "A1" 1 2 (by decide) (by decide)⟩

theorem pymax_mem (key : SplayShot → ℝ) (l : List SplayShot) :
    ∀ a, pymax key a l ∈ a :: l := by
  induction l with
  | nil =>
    intro a
    simp [pymax]
  | cons b t ih =>
    intro a
    have e : pymax key a (b :: t) = pymax key (if key a < key b then b else a) t := rfl
    rw [e]
    by_cases hc : key a < key b
    · rw [if_pos hc]
      exact List.mem_cons_of_mem a (ih b)
    · rw [if_neg hc]
      rcases List.mem_cons.1 (ih a) with h1 | h1
      · exact List.mem_cons.2 (Or.inl h1)
      · exact List.mem_cons_of_mem a (List.mem_cons_of_mem b h1)

theorem mem_findCandidateSplays {s : SplayShot} {splays : List SplayShot}
    {azm inc delta : ℚ} (h : s ∈ findCandidateSplays splays azm inc delta) :
    s ∈ splays ∧ angleDelta s.AZM azm ≤ delta / 2 ∧ angleDelta s.INC inc ≤ delta / 2 := by
  unfold findCandidateSplays at h
  have h2 := List.mem_filter.1 h
  exact ⟨h2.1, of_decide_eq_true h2.2⟩

theorem cos_rad_pos {θ : ℚ} (h : angleDelta θ 0 ≤ 30) : 0 < Real.cos (rad θ) := by
  have habs : |qmod (θ - 0 + 180) 360 - 180| ≤ 30 := h
  set t : ℚ := qmod (θ - 0 + 180) 360 - 180 with ht
  set k : ℤ := ⌊(θ - 0 + 180) / 360⌋ with hk
  have hθ : θ = t + 360 * k := by
    rw [ht, hk]
    unfold qmod
    ring
  have hcos : Real.cos (rad θ) = Real.cos (rad t) := by
    rw [hθ]
    unfold rad
    push_cast
    have e : (((t : ℝ) + 360 * (k : ℝ)) * Real.pi / 180)
        = (t : ℝ) * Real.pi / 180 + (k : ℝ) * (2 * Real.pi) := by ring
    rw [e]
    exact Real.cos_add_int_mul_two_pi _ k
  rw [hcos]
  have hlo : (-30 : ℝ) ≤ (t : ℝ) := by
    have := (abs_le.1 habs).1
    exact_mod_cast this
  have hhi : (t : ℝ) ≤ 30 := by
    have := (abs_le.1 habs).2
    exact_mod_cast this
  have hπ := Real.pi_pos
  apply Real.cos_pos_of_mem_Ioo
  constructor
  · show -(Real.pi / 2) < rad t
    unfold rad
    nlinarith [mul_nonneg (by linarith : (0 : ℝ) ≤ (t : ℝ) + 30) hπ.le]
  · show rad t < Real.pi / 2
    unfold rad
    nlinarith [mul_nonneg (by linarith : (0 : ℝ) ≤ 30 - (t : ℝ)) hπ.le]

theorem horizValue_nonneg (splays : List SplayShot) (targetAzm : ℚ)
    (hlen : ∀ s ∈ splays, 0 ≤ s.LENGTH) : 0 ≤ horizValue splays targetAzm := by
  unfold horizValue
  split
  · exact le_refl 0
  · rename_i c cs heq
    have hm : pymax (fun s => hd s.INC s.LENGTH) c cs ∈ c :: cs :=
      pymax_mem (fun s => hd s.INC s.LENGTH) cs c
    rw [← heq] at hm
    have hprops := mem_findCandidateSplays hm
    have hinc : angleDelta (pymax (fun s => hd s.INC s.LENGTH) c cs).INC 0 ≤ 30 := by
      have := hprops.2.2
      norm_num at this
      exact this
    have hpos : (0 : ℚ) ≤ (pymax (fun s => hd s.INC s.LENGTH) c cs).LENGTH :=
      hlen _ hprops.1
    unfold hd
    apply mul_nonneg
    · exact_mod_cast hpos
    · exact (cos_rad_pos hinc).le

theorem vertValue_nonneg (splays : List SplayShot) (inc : ℚ) :
    0 ≤ vertValue splays inc := by
  unfold vertValue
  split
  · exact abs_nonneg _
  · exact le_refl 0

/-- C4: for any splay list with non-negative distance readings — every
parsed distance is — and any shot azimuth, the LRUD block of the
conversion engine emits its quadruple (the `assert(all(v >= 0 ...))`
post-condition before emission passes) and all four emitted magnitudes,
the DOWN magnitude included, are non-negative. -/
theorem lrud_emitted_nonneg (splays : List SplayShot) (azm : ℚ)
    (hlen : ∀ s ∈ splays, 0 ≤ s.LENGTH) :
    ∃ l r u d : ℝ, shot2shotLRUD splays azm = some (l, r, u, d) ∧
      0 ≤ l ∧ 0 ≤ r ∧ 0 ≤ u ∧ 0 ≤ d := by
  have h1 := horizValue_nonneg splays (qmod (azm - 90) 360) hlen
  have h2 := horizValue_nonneg splays (qmod (azm + 90) 360) hlen
  have h3 := vertValue_nonneg splays 90
  have h4 := vertValue_nonneg splays (-90)
  refine ⟨horizValue splays (qmod (azm - 90) 360),
    horizValue splays (qmod (azm + 90) 360),
    vertValue splays 90, vertValue splays (-90), ?_, h1, h2, h3, h4⟩
  unfold shot2shotLRUD lrudValues
  exact if_pos ⟨h1, h2, h3, h4⟩

/-- C4 witness: one splay of length 2 recorded level and due north at a
station whose shot azimuth is 90. -/
theorem lrud_emitted_nonneg_witness :
    (∀ s ∈ [SplayShot.mk 0 0 2], (0 : ℚ) ≤ s.LENGTH) ∧
    ∃ l r u d : ℝ, shot2shotLRUD [SplayShot.mk 0 0 2] 90 = some (l, r, u, d) ∧
      0 ≤ l ∧ 0 ≤ r ∧ 0 ≤ u ∧ 0 ≤ d :=
  ⟨by decide, lrud_emitted_nonneg [SplayShot.mk 0 0 2] 90 (by decide)⟩

end Davies
